import Mathlib

/-!
Verification development for the formula evaluator/typesetter in
`latex2cs/lib/calc.py` (the embedded calculator: a pyparsing grammar for a
restricted algebraic expression language, a numeric evaluator and a LaTeX
renderer over the same parse tree).

Modelling conventions:
* Python floats are modelled by exact rational numbers (`ℚ`); the float
  special value `nan` is a separate constructor.  Complex values (the default
  variables `i`/`j`) are modelled as rational pairs.  Where a Python float
  operation produces a result that has no exact rational counterpart
  (a fractional power), the model returns the explicit marker
  `EvalErr.notModelled`; no claim below exercises that path.
* Python exceptions are modelled by `Except`: `SyntaxError` from the parser,
  `UndefinedVariable`, `TypeError` (e.g. subscripting a `set`),
  `ZeroDivisionError`, `ValueError`, `StopIteration`.
* The pyparsing grammar of `ParseAugmenter.parse_algebra` is embedded as a
  fuel-indexed recursive-descent function over `List Char`, with pyparsing's
  default inter-token whitespace skipping and ordered-choice backtracking.
* `calc.py` defines `add_defaults` twice at module level: the dict-returning
  version (line 319) and, later, the set-returning version (line 861, from
  the preview half of the module).  Python name resolution makes every call
  of `add_defaults` — including the one inside `evaluator` — use the *second*
  definition, so `evaluator`'s variable/function lookups subscript a `set`
  and raise `TypeError`.  Both definitions are embedded below and `evaluator`
  faithfully uses the set-returning one.
-/

/-- A Python number as produced by the calculator: a float (exact rational
model), a complex number (`numpy.complex`), or the float `nan`. -/
inductive PyVal where
  | rat (q : ℚ)
  | cplx (re im : ℚ)
  | nan
deriving DecidableEq, Repr

/-- Errors (Python exceptions) that can escape evaluation. -/
inductive EvalErr where
  | syntaxError
  | undefinedVariable (msg : String)
  | typeError
  | zeroDivision
  | valueError
  | stopIteration
  | notModelled
  | internalError
deriving DecidableEq, Repr

/-- A value flowing through `reduce_tree`: terminal tokens stay strings
(`terminal_converter=None`), reduced nodes are numbers. -/
inductive EvalTok where
  | str (s : String)
  | val (v : PyVal)
deriving DecidableEq, Repr

/-- Python `x == 0` for the values occurring here (`0 in parse_result`).
Strings compare unequal to `0`; `nan` compares unequal to `0`. -/
def isZeroVal : PyVal → Bool
  | .rat q => q == 0
  | .cplx a b => a == 0 && b == 0
  | .nan => false

def isZeroTok : EvalTok → Bool
  | .val v => isZeroVal v
  | .str _ => false

/-- Python `+` on the number values (nan propagates). -/
def pyAdd : PyVal → PyVal → PyVal
  | .nan, _ => .nan
  | _, .nan => .nan
  | .rat a, .rat b => .rat (a + b)
  | .rat a, .cplx c d => .cplx (a + c) d
  | .cplx a b, .rat c => .cplx (a + c) b
  | .cplx a b, .cplx c d => .cplx (a + c) (b + d)

/-- Python `-` on the number values. -/
def pySub : PyVal → PyVal → PyVal
  | .nan, _ => .nan
  | _, .nan => .nan
  | .rat a, .rat b => .rat (a - b)
  | .rat a, .cplx c d => .cplx (a - c) (-d)
  | .cplx a b, .rat c => .cplx (a - c) b
  | .cplx a b, .cplx c d => .cplx (a - c) (b - d)

/-- Python `*` on the number values. -/
def pyMul : PyVal → PyVal → PyVal
  | .nan, _ => .nan
  | _, .nan => .nan
  | .rat a, .rat b => .rat (a * b)
  | .rat a, .cplx c d => .cplx (a * c) (a * d)
  | .cplx a b, .rat c => .cplx (a * c) (b * c)
  | .cplx a b, .cplx c d => .cplx (a * c - b * d) (a * d + b * c)

/-- Python `/` (true division): raises `ZeroDivisionError` on a zero divisor,
otherwise divides (nan propagates). -/
def pyDiv (x y : PyVal) : Except EvalErr PyVal :=
  if isZeroVal y then .error .zeroDivision
  else
    match x, y with
    | .nan, _ => .ok .nan
    | _, .nan => .ok .nan
    | .rat a, .rat b => .ok (.rat (a / b))
    | .rat a, .cplx c d => .ok (.cplx (a * c / (c * c + d * d)) (-(a * d) / (c * c + d * d)))
    | .cplx a b, .rat c => .ok (.cplx (a / c) (b / c))
    | .cplx a b, .cplx c d =>
        .ok (.cplx ((a * c + b * d) / (c * c + d * d)) ((b * c - a * d) / (c * c + d * d)))

/-- Python `**` (as used by `eval_power`: `b ** a` on floats).  Integral
exponents are computed exactly; `x ** 0.0 = 1.0` (also for nan);
`0.0 ** negative` raises `ZeroDivisionError`.  A fractional exponent or a
complex base yields an inexact float/complex result with no exact rational
counterpart: the model marks those `notModelled` (no claim reaches them). -/
def pypow : PyVal → PyVal → Except EvalErr PyVal
  | .nan, .rat q => if q = 0 then .ok (.rat 1) else .ok .nan
  | .nan, .nan => .ok .nan
  | .nan, .cplx _ _ => .error .notModelled
  | .rat p, .nan => if p = 1 then .ok (.rat 1) else .ok .nan
  | .rat p, .rat q =>
      if q.den = 1 then
        if p = 0 ∧ q.num < 0 then .error .zeroDivision
        else .ok (.rat (p ^ q.num))
      else if p = 0 then
        (if q < 0 then .error .zeroDivision else .ok (.rat 0))
      else .error .notModelled
  | .rat _, .cplx _ _ => .error .notModelled
  | .cplx _ _, .rat q => if q = 0 then .ok (.cplx 1 0) else .error .notModelled
  | .cplx _ _, .nan => .ok .nan
  | .cplx _ _, .cplx _ _ => .error .notModelled

/-- The parse tree produced by `ParseAugmenter.parse_algebra`: a
`pyparsing.ParseResults` is a named group holding a list of children, each a
terminal token string or a nested group. -/
inductive PTree where
  | leaf (s : String)
  | node (name : String) (kids : List PTree)
deriving Repr

/-- Characters pyparsing skips between tokens (its default whitespace). -/
def isPyWs (c : Char) : Bool :=
  c == ' ' || c == '\t' || c == '\n' || c == '\r'

/-- Skip inter-token whitespace. -/
def skipWs (cs : List Char) : List Char := cs.dropWhile isPyWs

/-- Match an exact character sequence at the head of the input. -/
def dropPre : List Char → List Char → Option (List Char)
  | [], cs => some cs
  | _ :: _, [] => none
  | p :: ps, c :: cs => if c = p then dropPre ps cs else none

/-- `Literal`: skip whitespace, then match the given characters. -/
def lit (pat : List Char) (cs : List Char) : Option (List Char) :=
  dropPre pat (skipWs cs)

/-- `Word`: skip whitespace, then take a nonempty maximal run of characters
satisfying `p` (with a possibly different predicate for the first char). -/
def wordOf (pFirst p : Char → Bool) (cs : List Char) : Option (String × List Char) :=
  match skipWs cs with
  | [] => none
  | c :: rest =>
    if pFirst c then
      let w := rest.takeWhile p
      some (String.mk (c :: w), rest.dropWhile p)
    else none

def isVarStart (c : Char) : Bool := c.isAlpha || c == '_'
def isVarChar (c : Char) : Bool := c.isAlphanum || c == '_'

/-- The SI suffix table `SUFFIXES` (float literals modelled by their exact
decimal values). -/
def SUFFIXES : List (Char × ℚ) :=
  [('%', 1/100), ('k', 1000), ('M', 1000000), ('G', 1000000000),
   ('T', 1000000000000), ('c', 1/100), ('m', 1/1000), ('u', 1/1000000),
   ('n', 1/1000000000), ('p', 1/1000000000000)]

/-- Look a character up in `SUFFIXES` (Python `text[-1] in SUFFIXES` and
`SUFFIXES[text[-1]]`). -/
def suffixValue : Char → Option ℚ
  | c => (SUFFIXES.find? (fun p => p.1 == c)).map Prod.snd

/-- Parse the `number` group's tokens: optional sign, `Combine`d mantissa
(`digits`, `digits.digits`, `digits.`, or `.digits`), optional caseless `E`
exponent (the token recorded is always the literal's text `"E"`), optional SI
suffix.  Returns the group's token list, or `none` (with full backtracking). -/
def parseNumberTok (cs : List Char) : Option (List PTree × List Char) :=
  -- Optional(plus_minus)
  let (signToks, cs1) :=
    match lit ['+'] cs with
    | some r => ([PTree.leaf "+"], r)
    | none =>
      match lit ['-'] cs with
      | some r => ([PTree.leaf "-"], r)
      | none => ([], cs)
  -- Combine(inner_number): no whitespace inside
  let csi := skipWs cs1
  let d1 := csi.takeWhile Char.isDigit
  let r1 := csi.dropWhile Char.isDigit
  let mantissa : Option (List Char × List Char) :=
    if d1.isEmpty then
      -- "." + number_part
      match r1 with
      | '.' :: r2 =>
        let d2 := r2.takeWhile Char.isDigit
        if d2.isEmpty then none
        else some ('.' :: d2, r2.dropWhile Char.isDigit)
      | _ => none
    else
      match r1 with
      | '.' :: r2 =>
        let d2 := r2.takeWhile Char.isDigit
        some (d1 ++ '.' :: d2, r2.dropWhile Char.isDigit)
      | _ => some (d1, r1)
  match mantissa with
  | none => none
  | some (m, cs2) =>
    -- Optional(CaselessLiteral("E") + Optional(plus_minus) + number_part)
    let (eToks, cs3) :=
      match skipWs cs2 with
      | 'E' :: r2 =>
        (match
          (let (sToks, r3) :=
            match lit ['+'] r2 with
            | some r => ([PTree.leaf "+"], r)
            | none =>
              match lit ['-'] r2 with
              | some r => ([PTree.leaf "-"], r)
              | none => ([], r2)
          match wordOf Char.isDigit Char.isDigit r3 with
          | some (d, r4) => some (PTree.leaf "E" :: sToks ++ [PTree.leaf d], r4)
          | none => none) with
        | some (ts, r) => (ts, r)
        | none => ([], cs2))
      | 'e' :: r2 =>
        (match
          (let (sToks, r3) :=
            match lit ['+'] r2 with
            | some r => ([PTree.leaf "+"], r)
            | none =>
              match lit ['-'] r2 with
              | some r => ([PTree.leaf "-"], r)
              | none => ([], r2)
          match wordOf Char.isDigit Char.isDigit r3 with
          | some (d, r4) => some (PTree.leaf "E" :: sToks ++ [PTree.leaf d], r4)
          | none => none) with
        | some (ts, r) => (ts, r)
        | none => ([], cs2))
      | _ => ([], cs2)
    -- Optional(number_suffix)
    let (sufToks, cs4) :=
      match skipWs cs3 with
      | c :: r =>
        if (suffixValue c).isSome then ([PTree.leaf (String.mk [c])], r)
        else ([], cs3)
      | [] => ([], cs3)
    some (signToks ++ PTree.leaf (String.mk m) :: eToks ++ sufToks, cs4)

/-- The grammar nonterminals, used as the mode of the single fuel-indexed
parsing function (so that the whole parser is structurally recursive and
kernel-reducible). -/
inductive PMode where
  | sum | chainSum | product | chainProd | parallel | chainPar
  | power | chainPow | atom

/-- The recursive-descent core of `parse_algebra`.  Chain modes implement
`ZeroOrMore(op + operand)` with pyparsing's backtracking (a failing iteration
restores the position); `sum`'s leading sign is pyparsing's non-backtracking
`Optional` inside `And`.  `atom`'s ordered alternatives are
`number | function | varname | "(" expr ")"` (a function whose parenthesized
argument fails falls back to the plain variable, which matches the same
identifier). -/
def parseF : Nat → PMode → List Char → Option (List PTree × List Char)
  | 0, _, _ => none
  | fuel + 1, m, cs =>
    match m with
    | .sum =>
      -- Optional(plus_minus) + prod_term + ZeroOrMore(plus_minus + prod_term)
      let (signToks, cs1) :=
        match lit ['+'] cs with
        | some r => ([PTree.leaf "+"], r)
        | none =>
          match lit ['-'] cs with
          | some r => ([PTree.leaf "-"], r)
          | none => ([], cs)
      match parseF fuel .product cs1 with
      | some (ps, cs2) =>
        match parseF fuel .chainSum cs2 with
        | some (rest, cs3) => some ([PTree.node "sum" (signToks ++ ps ++ rest)], cs3)
        | none => none
      | none => none
    | .chainSum =>
      let withOp (tok : String) (r1 : List Char) : Option (List PTree × List Char) :=
        match parseF fuel .product r1 with
        | some (ps, r2) =>
          match parseF fuel .chainSum r2 with
          | some (rest, r3) => some (PTree.leaf tok :: ps ++ rest, r3)
          | none => none
        | none => some ([], cs)
      match lit ['+'] cs with
      | some r1 => withOp "+" r1
      | none =>
        match lit ['-'] cs with
        | some r1 => withOp "-" r1
        | none => some ([], cs)
    | .product =>
      match parseF fuel .parallel cs with
      | some (ps, cs1) =>
        match parseF fuel .chainProd cs1 with
        | some (rest, cs2) => some ([PTree.node "product" (ps ++ rest)], cs2)
        | none => none
      | none => none
    | .chainProd =>
      let withOp (tok : String) (r1 : List Char) : Option (List PTree × List Char) :=
        match parseF fuel .parallel r1 with
        | some (ps, r2) =>
          match parseF fuel .chainProd r2 with
          | some (rest, r3) => some (PTree.leaf tok :: ps ++ rest, r3)
          | none => none
        | none => some ([], cs)
      match lit ['*'] cs with
      | some r1 => withOp "*" r1
      | none =>
        match lit ['/'] cs with
        | some r1 => withOp "/" r1
        | none => some ([], cs)
    | .parallel =>
      match parseF fuel .power cs with
      | some (ps, cs1) =>
        match parseF fuel .chainPar cs1 with
        | some (rest, cs2) => some ([PTree.node "parallel" (ps ++ rest)], cs2)
        | none => none
      | none => none
    | .chainPar =>
      match lit ['|', '|'] cs with
      | some r1 =>
        (match parseF fuel .power r1 with
        | some (ps, r2) =>
          match parseF fuel .chainPar r2 with
          | some (rest, r3) => some (PTree.leaf "||" :: ps ++ rest, r3)
          | none => none
        | none => some ([], cs))
      | none => some ([], cs)
    | .power =>
      match parseF fuel .atom cs with
      | some (ps, cs1) =>
        match parseF fuel .chainPow cs1 with
        | some (rest, cs2) => some ([PTree.node "power" (ps ++ rest)], cs2)
        | none => none
      | none => none
    | .chainPow =>
      match lit ['^'] cs with
      | some r1 =>
        (match parseF fuel .atom r1 with
        | some (ps, r2) =>
          match parseF fuel .chainPow r2 with
          | some (rest, r3) => some (PTree.leaf "^" :: ps ++ rest, r3)
          | none => none
        | none => some ([], cs))
      | none => some ([], cs)
    | .atom =>
      match parseNumberTok cs with
      | some (toks, r) => some ([PTree.node "atom" [PTree.node "number" toks]], r)
      | none =>
        match wordOf isVarStart isVarChar cs with
        | some (name, r1) =>
          -- function: inner_varname + Suppress("(") + expr + Suppress(")")
          let varOnly : Option (List PTree × List Char) :=
            some ([PTree.node "atom" [PTree.node "variable" [PTree.leaf name]]], r1)
          (match lit ['('] r1 with
          | some r2 =>
            (match parseF fuel .sum r2 with
            | some ([e], r3) =>
              (match lit [')'] r3 with
              | some r4 =>
                some ([PTree.node "atom"
                        [PTree.node "function" [PTree.leaf name, e]]], r4)
              | none => varOnly)
            | _ => varOnly)
          | none => varOnly)
        | none =>
          -- "(" + expr + ")"  (the parens are kept in the tree)
          match lit ['('] cs with
          | some r1 =>
            (match parseF fuel .sum r1 with
            | some ([e], r2) =>
              (match lit [')'] r2 with
              | some r3 =>
                some ([PTree.node "atom" [PTree.leaf "(", e, PTree.leaf ")"]], r3)
              | none => none)
            | _ => none)
          | none => none

/-- Fuel that certainly suffices for any parse of `s` (the recursion depth is
linearly bounded by the input length). -/
def parseFuel (s : String) : Nat := 16 * (s.length + 4)

/-- `(expr + stringEnd).parseString(math_expr)[0]`: parse one `sum`, require
(up to trailing whitespace) the end of the input, return the tree, or fail
with a syntax error (`none`). -/
def parseAlgebra (s : String) : Option PTree :=
  match parseF (parseFuel s) .sum s.data with
  | some ([t], rest) => if skipWs rest = [] then some t else none
  | _ => none

/-- Numeric value of a digit run. -/
def digitsVal (ds : List Char) : ℕ :=
  ds.foldl (fun acc c => 10 * acc + (c.toNat - '0'.toNat)) 0

/-- The exact value of Python `float(text)` on the strings the number grammar
produces: optional sign, decimal mantissa, optional `e`/`E` exponent. -/
def pyFloatQ (cs : List Char) : Option ℚ :=
  let (sgn, cs1) : ℚ × List Char :=
    match cs with
    | '+' :: t => (1, t)
    | '-' :: t => (-1, t)
    | _ => (1, cs)
  let d1 := cs1.takeWhile Char.isDigit
  let r1 := cs1.dropWhile Char.isDigit
  let mant : Option (ℚ × List Char) :=
    match r1 with
    | '.' :: r2 =>
      let d2 := r2.takeWhile Char.isDigit
      if d1.isEmpty && d2.isEmpty then none
      else some ((digitsVal d1 : ℚ) + (digitsVal d2 : ℚ) / 10 ^ d2.length,
                 r2.dropWhile Char.isDigit)
    | _ => if d1.isEmpty then none else some ((digitsVal d1 : ℚ), r1)
  match mant with
  | none => none
  | some (m, rest) =>
    match rest with
    | [] => some (sgn * m)
    | c :: r2 =>
      if c = 'e' || c = 'E' then
        let (es, r3) : ℤ × List Char :=
          match r2 with
          | '+' :: t => (1, t)
          | '-' :: t => (-1, t)
          | _ => (1, r2)
        let d := r3.takeWhile Char.isDigit
        if d.isEmpty then none
        else if (r3.dropWhile Char.isDigit).isEmpty then
          some (sgn * m * (10 : ℚ) ^ (es * (digitsVal d : ℤ)))
        else none
      else none

/-- `super_float`: like `float`, but applying a trailing SI suffix. -/
def superFloat (cs : List Char) : Option ℚ :=
  match cs.getLast? with
  | none => none
  | some c =>
    match suffixValue c with
    | some mult => (pyFloatQ cs.dropLast).map (· * mult)
    | none => pyFloatQ cs

/-- `eval_number`: join the number group's string tokens and `super_float`
the result (a non-string child would make `join` raise `TypeError`; a string
`float()` cannot parse raises `ValueError`). -/
def evalNumber (kids : List EvalTok) : Except EvalErr EvalTok :=
  match kids.mapM (fun t => match t with | .str s => some s | .val _ => none) with
  | none => .error .typeError
  | some parts =>
    match superFloat (parts.foldl (fun acc s => acc ++ s) "").data with
    | some q => .ok (.val (.rat q))
    | none => .error .valueError

/-- `eval_atom`: the first numeric child (parens are transparent); an atom
with no numeric child would make `next` raise `StopIteration`. -/
def evalAtom (kids : List EvalTok) : Except EvalErr EvalTok :=
  match kids.filterMap (fun t => match t with | .val v => some v | .str _ => none) with
  | v :: _ => .ok (.val v)
  | [] => .error .stopIteration

/-- Right-to-left exponentiation fold of `eval_power`
(`reduce(lambda a, b: b ** a, reversed(numbers))`). -/
def powFold : PyVal → List PyVal → Except EvalErr PyVal
  | acc, [] => .ok acc
  | acc, x :: rest =>
    match pypow x acc with
    | .error e => .error e
    | .ok y => powFold y rest

/-- `eval_power`: ignore the `^` marks, reverse, and fold `b ** a`
(`reduce` of an empty sequence raises `TypeError`). -/
def evalPower (kids : List EvalTok) : Except EvalErr EvalTok :=
  match (kids.filterMap (fun t => match t with | .val v => some v | .str _ => none)).reverse with
  | [] => .error .typeError
  | v :: rest => (powFold v rest).map .val

/-- The list comprehension `[1. / e for e in parse_result if
isinstance(e, Number)]` of `eval_parallel` (evaluated left to right, raising
on the first failing division). -/
def recipList : List PyVal → Except EvalErr (List PyVal)
  | [] => .ok []
  | v :: rest =>
    match pyDiv (.rat 1) v with
    | .error e => .error e
    | .ok r =>
      match recipList rest with
      | .error e => .error e
      | .ok rs => .ok (r :: rs)

/-- `eval_parallel`: a single child is returned unchanged; a zero operand
short-circuits to `nan`; otherwise `1 / (1/x1 + 1/x2 + ...)` over the numeric
children. -/
def evalParallel (kids : List EvalTok) : Except EvalErr EvalTok :=
  if kids.length = 1 then
    match kids with
    | t :: _ => .ok t
    | [] => .error .internalError   -- unreachable: the length is 1
  else if kids.any isZeroTok then .ok (.val .nan)
  else
    match recipList
            (kids.filterMap (fun t => match t with | .val v => some v | .str _ => none)) with
    | .error e => .error e
    | .ok recips =>
      match pyDiv (.rat 1) (recips.foldl pyAdd (.rat 0)) with
      | .error e => .error e
      | .ok r => .ok (.val r)

/-- `eval_sum`: left-to-right fold from `0.0`, with `+`/`-` tokens switching
the pending operator (any other string child would raise `TypeError` when the
arithmetic operator is applied to it). -/
def sumGo (total : PyVal) (isAdd : Bool) : List EvalTok → Except EvalErr PyVal
  | [] => .ok total
  | .str "+" :: rest => sumGo total true rest
  | .str "-" :: rest => sumGo total false rest
  | .str _ :: _ => .error .typeError
  | .val v :: rest => sumGo (if isAdd then pyAdd total v else pySub total v) isAdd rest

def evalSum (kids : List EvalTok) : Except EvalErr EvalTok :=
  (sumGo (.rat 0) true kids).map .val

/-- `eval_product`: left-to-right fold from `1.0`, with `*`/`/` tokens
switching the pending operator (division may raise `ZeroDivisionError`). -/
def prodGo (prod : PyVal) (isMul : Bool) : List EvalTok → Except EvalErr PyVal
  | [] => .ok prod
  | .str "*" :: rest => prodGo prod true rest
  | .str "/" :: rest => prodGo prod false rest
  | .str _ :: _ => .error .typeError
  | .val v :: rest =>
    if isMul then prodGo (pyMul prod v) isMul rest
    else
      match pyDiv prod v with
      | .error e => .error e
      | .ok r => prodGo r isMul rest

def evalProduct (kids : List EvalTok) : Except EvalErr EvalTok :=
  (prodGo (.rat 1) true kids).map .val

/-- `DEFAULT_VARIABLES` (values of the physical constants are modelled by the
decimal values documented in the source; `e` and `pi` by the exact values of
the IEEE-754 doubles `math.e` and `math.pi`; only the *names* are ever
consulted by `evaluator`, because of the `add_defaults` shadowing). -/
def DEFAULT_VARIABLES : List (String × PyVal) :=
  [("i", .cplx 0 1),
   ("j", .cplx 0 1),
   ("e", .rat (6121026514868073 / 2251799813685248)),
   ("pi", .rat (884279719003555 / 281474976710656)),
   ("k", .rat (13806488 / 10 ^ 30)),
   ("c", .rat 299792458),
   ("T", .rat (29815 / 100)),
   ("q", .rat (1602176565 / 10 ^ 28))]

/-- The names of `DEFAULT_FUNCTIONS` (the function objects themselves are
numpy routines; `evaluator` only ever uses the key set, again because of the
`add_defaults` shadowing). -/
def DEFAULT_FUNCTIONS_names : List String :=
  ["sin", "cos", "tan", "sec", "csc", "cot", "sqrt", "log10", "log2", "ln",
   "exp", "arccos", "arcsin", "arctan", "arcsec", "arccsc", "arccot", "abs",
   "fact", "factorial", "sinh", "cosh", "tanh", "sech", "csch", "coth",
   "arcsinh", "arccosh", "arctanh", "arcsech", "arccsch", "arccoth"]

/-- Python `str.lower` for the ASCII identifiers used here. -/
def asciiLower (s : String) : String :=
  String.mk (s.data.map fun c =>
    if 'A' ≤ c ∧ c ≤ 'Z' then Char.ofNat (c.toNat + 32) else c)

/-- The case normalization used by `check_variables` and the evaluation
actions: identity when case-sensitive, lowercasing otherwise. -/
def casify (caseSensitive : Bool) (s : String) : String :=
  if caseSensitive then s else asciiLower s

/-- Order-preserving deduplication (Python `set` membership semantics: only
membership in the result is ever used). -/
def dedupAux (seen : List String) : List String → List String
  | [] => []
  | x :: xs => if seen.contains x then dedupAux seen xs
               else x :: dedupAux (x :: seen) xs

def dedup (xs : List String) : List String := dedupAux [] xs

/-- The second, set-returning `add_defaults` (line 861): the union of the
default and user-supplied *names* (iterating a dict yields its keys),
lowercased when case-insensitive.  This is the definition every call of
`add_defaults` resolves to at run time. -/
def add_defaults_sets (var fn : List String) (case_sensitive : Bool) :
    List String × List String :=
  let var_items := dedup (DEFAULT_VARIABLES.map Prod.fst ++ var)
  let fun_items := dedup (DEFAULT_FUNCTIONS_names ++ fn)
  if !case_sensitive then
    (dedup (var_items.map asciiLower), dedup (fun_items.map asciiLower))
  else (var_items, fun_items)

/-- The first, dict-returning `add_defaults` (line 319): defaults overlaid
with the caller's variables (caller wins on key collision), keys lowercased
when case-insensitive (last write wins).  Dead code at run time: the later
definition above shadows it. -/
def lower_dict (d : List (String × PyVal)) : List (String × PyVal) :=
  (d.map fun p => (asciiLower p.1, p.2)).reverse.foldl
    (fun acc p => if acc.any (fun q => q.1 == p.1) then acc else p :: acc) []

def add_defaults_dicts (userVariables : List (String × PyVal))
    (case_sensitive : Bool) : List (String × PyVal) :=
  let all_variables :=
    (DEFAULT_VARIABLES ++ userVariables).reverse.foldl
      (fun acc p => if acc.any (fun q => q.1 == p.1) then acc else p :: acc) []
  if !case_sensitive then lower_dict all_variables else all_variables

/-- Lexicographic (code-point) string comparison, matching Python's `<`. -/
def charListLt : List Char → List Char → Bool
  | [], [] => false
  | [], _ :: _ => true
  | _ :: _, [] => false
  | a :: as_, b :: bs =>
    if a.toNat < b.toNat then true
    else if a.toNat = b.toNat then charListLt as_ bs
    else false

def strLt (a b : String) : Bool := charListLt a.data b.data

/-- Insertion sort in ascending order (Python `sorted`). -/
def insertStr (x : String) : List String → List String
  | [] => [x]
  | y :: ys => if strLt y x then y :: insertStr x ys else x :: y :: ys

def sortStrings : List String → List String
  | [] => []
  | x :: xs => insertStr x (sortStrings xs)

/-- Space-join (`' '.join`). -/
def spaceJoin : List String → String
  | [] => ""
  | [x] => x
  | x :: xs => x ++ " " ++ spaceJoin xs

/-- The side-effect of the `variable`/`function` parse actions: the sets of
distinct variable and function names referenced by the tree (fuel-indexed to
stay structurally recursive; any fuel at least the tree depth is exact). -/
def collectUsed : Nat → PTree → List String × List String
  | 0, _ => ([], [])
  | _ + 1, .leaf _ => ([], [])
  | fuel + 1, .node name kids =>
    let below := kids.foldl
      (fun acc k =>
        let (v, f) := collectUsed fuel k
        (acc.1 ++ v, acc.2 ++ f))
      (([], []) : List String × List String)
    match name, kids with
    | "variable", PTree.leaf n :: _ => (below.1 ++ [n], below.2)
    | "function", PTree.leaf n :: _ => (below.1, below.2 ++ [n])
    | _, _ => below

/-- The offending names computed by `check_variables`: every used variable
name missing (after case normalization) from the valid variables, together
with every used function name missing from the valid functions, as one
deduplicated collection. -/
def badIdentifiers (caseSensitive : Bool) (varsUsed funsUsed : List String)
    (validVars validFuns : List String) : List String :=
  dedup (varsUsed.filter (fun n => !(validVars.contains (casify caseSensitive n))) ++
         funsUsed.filter (fun n => !(validFuns.contains (casify caseSensitive n))))

/-- `ParseAugmenter.check_variables`: `none` when every referenced name is
defined, otherwise the single `UndefinedVariable` message listing *all*
offending names, sorted and space-joined. -/
def checkVariables (caseSensitive : Bool) (varsUsed funsUsed : List String)
    (validVars validFuns : List String) : Option String :=
  let bad := badIdentifiers caseSensitive varsUsed funsUsed validVars validFuns
  if bad.isEmpty then none else some (spaceJoin (sortStrings bad))

/-- One step of `evaluate_actions`.  Because the set-returning
`add_defaults` shadows the dict-returning one, `all_variables` and
`all_functions` are *sets of names* here, and the `variable`/`function`
actions' subscripting (`all_variables[casify(x[0])]`) raises `TypeError`
unconditionally.  The name sets and flag are therefore never consulted. -/
def evalAction (_allVariables _allFunctions : List String) (_caseSensitive : Bool)
    (name : String) (kids : List EvalTok) : Except EvalErr EvalTok :=
  if name = "number" then evalNumber kids
  else if name = "variable" then .error .typeError
  else if name = "function" then .error .typeError
  else if name = "atom" then evalAtom kids
  else if name = "power" then evalPower kids
  else if name = "parallel" then evalParallel kids
  else if name = "product" then evalProduct kids
  else if name = "sum" then evalSum kids
  else .error .internalError

/-- `reduce_tree` with the evaluation actions: children are reduced first
(left to right), then the node's action is applied; terminals pass through as
strings. -/
def evalTree (allVariables allFunctions : List String) (caseSensitive : Bool) :
    Nat → PTree → Except EvalErr EvalTok
  | 0, _ => .error .internalError
  | _ + 1, .leaf s => .ok (.str s)
  | fuel + 1, .node name kids => do
    let rs ← kids.mapM (evalTree allVariables allFunctions caseSensitive fuel)
    evalAction allVariables allFunctions caseSensitive name rs

/-- Python `str.strip()` (on both ends, whitespace). -/
def pyStrip (s : String) : String :=
  String.mk (((skipWs s.data).reverse.dropWhile isPyWs).reverse)

/-- `evaluator(variables, functions, math_expr, case_sensitive)`: the public
evaluation entry point.  Empty/whitespace input short-circuits to `nan`
before the parser; then parse, merge defaults (via the *shadowing*,
set-returning `add_defaults`), check the referenced names, and reduce. -/
def evaluator (userVariables : List (String × PyVal)) (userFunctions : List String)
    (math_expr : String) (case_sensitive : Bool := false) :
    Except EvalErr EvalTok :=
  if pyStrip math_expr = "" then .ok (.val .nan)
  else
    match parseAlgebra math_expr with
    | none => .error .syntaxError
    | some tree =>
      let fuel := parseFuel math_expr
      let names := add_defaults_sets (userVariables.map Prod.fst) userFunctions case_sensitive
      let used := collectUsed fuel tree
      match checkVariables case_sensitive used.1 used.2 names.1 names.2 with
      | some msg => .error (.undefinedVariable msg)
      | none => evalTree names.1 names.2 case_sensitive fuel tree

/-- Errors the rendering pass can raise: a syntax error from the parser, the
`"Unknown parenthesis"` coder-error guard in `LatexRendered.__init__`, and
out-of-range child access (`IndexError`, unreachable on grammar trees). -/
inductive RenderErr where
  | syntaxError
  | unknownParens
  | internalError
deriving DecidableEq, Repr

/-- `LatexRendered`: a generated latex string, the same string without its
outermost parens, and the tall-layout flag. -/
structure LatexRendered where
  latex : String
  sansParens : String
  tall : Bool
deriving DecidableEq, Repr

/-- `LatexRendered(latex, tall=...)` without parens. -/
def mkRendered (latex : String) (tall : Bool) : LatexRendered :=
  ⟨latex, latex, tall⟩

/-- `LatexRendered(latex, parens=..., tall=...)`: wrap in the matching pair
(`{` escaped to `\x7b`-backslash form), full-height glyphs when tall. -/
def mkRenderedParens (latex : String) (parens : String) (tall : Bool) :
    Except RenderErr LatexRendered :=
  let leftP := if parens = "\x7b" then "\\\x7b" else parens
  let rightP : Option String :=
    if leftP = "(" then some ")"
    else if leftP = "[" then some "]"
    else if leftP = "\\\x7b" then some "\\\x7d"
    else none
  match rightP with
  | none => .error .unknownParens
  | some rp =>
    let l := if tall then "\\left" ++ leftP else leftP
    let r := if tall then "\\right" ++ rp else rp
    .ok ⟨l ++ latex ++ r, latex, tall⟩

/-- Double every backslash in a terminal token (the `terminal_converter` of
`latex_preview`). -/
def escapeBackslash (s : String) : String :=
  String.mk (s.data.flatMap fun c => if c = '\\' then ['\\', '\\'] else [c])

def wrapEscaped (s : String) : LatexRendered := mkRendered (escapeBackslash s) false

/-- Concatenate a list of strings. -/
def joinAll (xs : List String) : String := xs.foldl (· ++ ·) ""

/-- `'SEP'.join`-style join with a separator. -/
def joinSep (sep : String) : List String → String
  | [] => ""
  | [x] => x
  | x :: xs => x ++ sep ++ joinSep sep xs

/-- Index of the first occurrence of `x` (`list.index`). -/
def findIdx (x : String) : List String → Nat
  | [] => 0
  | y :: ys => if y = x then 0 else findIdx x ys + 1

/-- Is a rendered token string one of the SI suffixes
(`children_latex[-1] in SUFFIXES`)? -/
def isSuffixStr (s : String) : Bool :=
  match s.data with
  | [c] => (suffixValue c).isSome
  | _ => false

/-- `render_number`: pop a trailing SI suffix into `\text{...}`; with an `E`
token, typeset mantissa `\!\times\!10^{exponent}` and mark tall; else just
concatenate. -/
def renderNumber (kids : List LatexRendered) : Except RenderErr LatexRendered :=
  let cl := kids.map (·.latex)
  match cl.getLast? with
  | none => .error .internalError
  | some lastTok =>
    let (suffix, cl) :=
      if isSuffixStr lastTok then ("\\text\x7b" ++ lastTok ++ "\x7d", cl.dropLast)
      else ("", cl)
    if cl.contains "E" then
      let pos := findIdx "E" cl
      let mantissa := joinAll (cl.take pos)
      let exponent := joinAll (cl.drop (pos + 1))
      .ok (mkRendered (mantissa ++ "\\!\\times\\!10^\x7b" ++ exponent ++ "\x7d" ++ suffix) true)
    else .ok (mkRendered (joinAll cl ++ suffix) false)

/-- The greek spellings (with capitalizations) plus `hbar` and `infty` that
`enrich_varname` maps to backslash macros. -/
def greekBase : List String :=
  ["alpha", "beta", "gamma", "delta", "epsilon", "varepsilon", "zeta", "eta",
   "theta", "vartheta", "iota", "kappa", "lambda", "mu", "nu", "xi", "pi",
   "rho", "sigma", "tau", "upsilon", "phi", "varphi", "chi", "psi", "omega"]

/-- Python `str.capitalize` on the (already lowercase ASCII) greek names. -/
def capitalizeStr (s : String) : String :=
  match s.data with
  | [] => ""
  | c :: t => String.mk ((if 'a' ≤ c ∧ c ≤ 'z' then Char.ofNat (c.toNat - 32) else c) :: t)

def greekNames : List String :=
  greekBase ++ greekBase.map capitalizeStr ++ ["hbar", "infty"]

/-- Replace each underscore by an escaped `\_`. -/
def escapeUnderscore (s : String) : String :=
  String.mk (s.data.flatMap fun c => if c = '_' then ['\\', '_'] else [c])

/-- `enrich_varname`: backslash-prefix greek names, else escape underscores. -/
def enrich_varname (varname : String) : String :=
  if greekNames.contains varname then "\\" ++ varname
  else escapeUnderscore varname

/-- Python `str.partition('_')`: split at the first underscore. -/
def pyPartitionUnderscore (s : String) : String × String × String :=
  let bef := s.data.takeWhile (· ≠ '_')
  match s.data.dropWhile (· ≠ '_') with
  | [] => (s, "", "")
  | _ :: aft => (String.mk bef, "_", String.mk aft)

/-- `render_variable` (the closure from `variable_closure`): the membership
check against the allowed-name set has a `pass` body (the unknown-variable
highlighting is left unimplemented), so the allowed names and the case flag
have no effect; one optional subscript is split at the first underscore. -/
def renderVariable (kids : List LatexRendered) : Except RenderErr LatexRendered :=
  match kids.head? with
  | none => .error .internalError
  | some k0 =>
    let varname := k0.latex
    let (first, _, second) := pyPartitionUnderscore varname
    if second ≠ "" then
      .ok (mkRendered (enrich_varname first ++ "_\x7b" ++ enrich_varname second ++ "\x7d") false)
    else .ok (mkRendered (enrich_varname varname) false)

/-- `render_function` (the closure from `function_closure`): again the
membership check body is `pass`; `sqrt`, `log2`, `log10` get bespoke macros;
other names render as `\text{name}` with the argument parenthesized according
to its tall flag. -/
def renderFunction (kids : List LatexRendered) : Except RenderErr LatexRendered :=
  match kids with
  | k0 :: k1 :: _ =>
    let fname := k0.latex
    let inner :=
      if fname = "sqrt" then "\x7b" ++ k1.latex ++ "\x7d"
      else if k1.tall then "\\left(" ++ k1.latex ++ "\\right)"
      else "(" ++ k1.latex ++ ")"
    let fname' :=
      if fname = "sqrt" then "\\sqrt"
      else if fname = "log10" then "\\log_\x7b10\x7d"
      else if fname = "log2" then "\\log_2"
      else "\\text\x7b" ++ fname ++ "\x7d"
    .ok (mkRendered (fname' ++ inner) k1.tall)
  | _ => .error .internalError

/-- `render_power`: right-associative nesting `base^{exponent}`; the
outermost exponent uses its parens-stripped form; always tall. -/
def renderPower (kids : List LatexRendered) : Except RenderErr LatexRendered :=
  match kids with
  | [k] => .ok k
  | _ =>
    let cl := (kids.filter (·.latex ≠ "^")).map (·.latex)
    match kids.getLast? with
    | none => .error .internalError
    | some kl =>
      match (cl.dropLast ++ [kl.sansParens]).reverse with
      | [] => .error .internalError
      | h :: t =>
        .ok (mkRendered (t.foldl (fun acc y => y ++ "^\x7b" ++ acc ++ "\x7d") h) true)

/-- `render_parallel`: join with `\|`; tall if any operand is. -/
def renderParallel (kids : List LatexRendered) : Except RenderErr LatexRendered :=
  match kids with
  | [k] => .ok k
  | _ =>
    .ok (mkRendered (joinSep "\\|" ((kids.filter (·.latex ≠ "||")).map (·.latex)))
          (kids.any (·.tall)))

/-- `render_frac`: `\frac{num}{den}`, each side `\cdot`-joined, using the
parens-stripped form when a side has exactly one term. -/
def render_frac (numerator denominator : List LatexRendered) : String :=
  let numLatex :=
    match numerator with
    | [n] => n.sansParens
    | _ => joinSep "\\cdot " (numerator.map (·.latex))
  let denLatex :=
    match denominator with
    | [d] => d.sansParens
    | _ => joinSep "\\cdot " (denominator.map (·.latex))
  "\\frac\x7b" ++ numLatex ++ "\x7d\x7b" ++ denLatex ++ "\x7d"

/-- The left-to-right scan of `render_product`: numerator/denominator mode
switching, flushing a `\frac` group at each denominator-to-numerator
transition; returns the accumulated latex and whether fraction mode was ever
entered. -/
def productGo (inNumerator fracEver : Bool) (numerator denominator : List LatexRendered)
    (acc : String) : List LatexRendered → String × Bool
  | [] =>
    if inNumerator then (acc ++ joinSep "\\cdot " (numerator.map (·.latex)), fracEver)
    else (acc ++ render_frac numerator denominator, fracEver)
  | kid :: rest =>
    if inNumerator then
      if kid.latex = "*" then productGo inNumerator fracEver numerator denominator acc rest
      else if kid.latex = "/" then productGo false true numerator denominator acc rest
      else productGo inNumerator fracEver (numerator ++ [kid]) denominator acc rest
    else
      if kid.latex = "*" then
        productGo true fracEver [] []
          (acc ++ render_frac numerator denominator ++ "\\cdot ") rest
      else if kid.latex = "/" then productGo inNumerator fracEver numerator denominator acc rest
      else productGo inNumerator fracEver numerator (denominator ++ [kid]) acc rest

/-- `render_product`: fraction groups joined by `\cdot`, a trailing
numerator-only group joined directly; tall if a fraction was formed or any
operand is tall. -/
def renderProduct (kids : List LatexRendered) : Except RenderErr LatexRendered :=
  match kids with
  | [k] => .ok k
  | _ =>
    let (latex, fracEver) := productGo true false [] [] "" kids
    .ok (mkRendered latex (fracEver || kids.any (·.tall)))

/-- `render_sum`: concatenate the children (operators included); tall if any
operand is. -/
def renderSum (kids : List LatexRendered) : Except RenderErr LatexRendered :=
  match kids with
  | [k] => .ok k
  | _ => .ok (mkRendered (joinAll (kids.map (·.latex))) (kids.any (·.tall)))

/-- `render_atom`: three children means parenthesized content. -/
def renderAtom (kids : List LatexRendered) : Except RenderErr LatexRendered :=
  match kids with
  | [a, b, _] => mkRenderedParens b.latex a.latex b.tall
  | k :: _ => .ok k
  | [] => .error .internalError

/-- One step of `render_actions` (the unknown-name highlighting in the
variable/function closures is a no-op, so no environment is consulted). -/
def renderAction (name : String) (kids : List LatexRendered) :
    Except RenderErr LatexRendered :=
  if name = "number" then renderNumber kids
  else if name = "variable" then renderVariable kids
  else if name = "function" then renderFunction kids
  else if name = "atom" then renderAtom kids
  else if name = "power" then renderPower kids
  else if name = "parallel" then renderParallel kids
  else if name = "product" then renderProduct kids
  else if name = "sum" then renderSum kids
  else .error .internalError

/-- `reduce_tree` with the render actions and the backslash-escaping terminal
converter. -/
def renderTree : Nat → PTree → Except RenderErr LatexRendered
  | 0, _ => .error .internalError
  | _ + 1, .leaf s => .ok (wrapEscaped s)
  | fuel + 1, .node name kids => do
    let rs ← kids.mapM (renderTree fuel)
    renderAction name rs

/-- `latex_preview(math_expr, variables, functions, case_sensitive)`: the
public rendering entry point.  Empty/whitespace input short-circuits to the
empty string; the merged default/user name sets are computed but feed only
the dead membership checks, so they never influence the output. -/
def latex_preview (math_expr : String) (userVariables userFunctions : List String)
    (case_sensitive : Bool := false) : Except RenderErr String :=
  if pyStrip math_expr = "" then .ok ""
  else
    match parseAlgebra math_expr with
    | none => .error .syntaxError
    | some tree =>
      let _names := add_defaults_sets userVariables userFunctions case_sensitive
      (renderTree (parseFuel math_expr) tree).map (·.latex)

instance {ε α : Type} [DecidableEq ε] [DecidableEq α] : DecidableEq (Except ε α)
  | .ok a, .ok b =>
      if h : a = b then .isTrue (by rw [h])
      else .isFalse (by intro he; cases he; exact h rfl)
  | .ok _, .error _ => .isFalse (by intro h; cases h)
  | .error _, .ok _ => .isFalse (by intro h; cases h)
  | .error a, .error b =>
      if h : a = b then .isTrue (by rw [h])
      else .isFalse (by intro he; cases he; exact h rfl)

/-! Helper lemmas. -/

lemma dropWhile_head_false {p : Char → Bool} {l : List Char} :
    ∀ {c : Char} {cs : List Char}, l.dropWhile p = c :: cs → p c = false := by
  induction l with
  | nil => intro c cs h; simp [List.dropWhile] at h
  | cons x xs ih =>
    intro c cs h
    by_cases hx : p x
    · simp [List.dropWhile, hx] at h
      exact ih h
    · simp [List.dropWhile, hx] at h
      obtain ⟨h1, _⟩ := h
      subst h1
      simpa using hx

lemma skipWs_nil_of_strip_empty {s : String} (h : pyStrip s = "") :
    skipWs s.data = [] := by
  have hdata : ((skipWs s.data).reverse.dropWhile isPyWs).reverse = [] := by
    have := congrArg String.data h
    simpa [pyStrip] using this
  have hall : ∀ c ∈ (skipWs s.data).reverse, isPyWs c := by
    rw [List.reverse_eq_nil_iff] at hdata
    intro c hc
    exact List.dropWhile_eq_nil_iff.mp hdata c hc
  cases hsk : skipWs s.data with
  | nil => rfl
  | cons c cs =>
    have hc : isPyWs c = false := dropWhile_head_false (p := isPyWs) hsk
    have hmem : c ∈ (skipWs s.data).reverse := by
      rw [hsk]; simp
    have := hall c hmem
    rw [hc] at this
    cases this

lemma lit_nil {c : Char} {pat cs : List Char} (h : skipWs cs = []) :
    lit (c :: pat) cs = none := by
  simp [lit, h, dropPre]

lemma wordOf_nil {pf p : Char → Bool} {cs : List Char} (h : skipWs cs = []) :
    wordOf pf p cs = none := by
  simp [wordOf, h]

lemma parseNumberTok_nil {cs : List Char} (h : skipWs cs = []) :
    parseNumberTok cs = none := by
  simp [parseNumberTok, lit, h, dropPre]

lemma parseF_atom_nil {fuel : Nat} {cs : List Char} (h : skipWs cs = []) :
    parseF fuel .atom cs = none := by
  cases fuel with
  | zero => rfl
  | succ f => simp [parseF, parseNumberTok_nil h, wordOf_nil h, lit, h, dropPre]

lemma parseF_power_nil {fuel : Nat} {cs : List Char} (h : skipWs cs = []) :
    parseF fuel .power cs = none := by
  cases fuel with
  | zero => rfl
  | succ f => simp [parseF, parseF_atom_nil h]

lemma parseF_parallel_nil {fuel : Nat} {cs : List Char} (h : skipWs cs = []) :
    parseF fuel .parallel cs = none := by
  cases fuel with
  | zero => rfl
  | succ f => simp [parseF, parseF_power_nil h]

lemma parseF_product_nil {fuel : Nat} {cs : List Char} (h : skipWs cs = []) :
    parseF fuel .product cs = none := by
  cases fuel with
  | zero => rfl
  | succ f => simp [parseF, parseF_parallel_nil h]

lemma parseF_sum_nil {fuel : Nat} {cs : List Char} (h : skipWs cs = []) :
    parseF fuel .sum cs = none := by
  cases fuel with
  | zero => rfl
  | succ f => simp [parseF, lit, h, dropPre, parseF_product_nil h]

/-- A whitespace-only expression cannot be parsed: the grammar requires at
least one atom. -/
lemma parseAlgebra_strip_empty {s : String} (h : pyStrip s = "") :
    parseAlgebra s = none := by
  simp [parseAlgebra, parseF_sum_nil (skipWs_nil_of_strip_empty h)]

/-- Conversely, a successful parse means the input was not blank. -/
lemma parse_some_strip_ne {s : String} {t : PTree} (h : parseAlgebra s = some t) :
    pyStrip s ≠ "" := by
  intro he
  rw [parseAlgebra_strip_empty he] at h
  cases h

lemma foldl_pyAdd_rat : ∀ (l : List ℚ) (a : ℚ),
    (l.map PyVal.rat).foldl pyAdd (.rat a) = .rat (l.foldl (· + ·) a) := by
  intro l
  induction l with
  | nil => intro a; rfl
  | cons q qs ih => intro a; simpa [pyAdd] using ih (a + q)

lemma getValTok_map_rat (qs : List ℚ) :
    ((qs.map fun q => EvalTok.val (.rat q)).filterMap
      (fun t => match t with | .val v => some v | .str _ => none)) = qs.map PyVal.rat := by
  induction qs with
  | nil => rfl
  | cons q l ih => simp [List.filterMap, ih]

lemma any_isZero_map_rat {qs : List ℚ} (h : ∀ q ∈ qs, q ≠ 0) :
    (qs.map fun q => EvalTok.val (.rat q)).any isZeroTok = false := by
  induction qs with
  | nil => rfl
  | cons q l ih =>
    have hq : q ≠ 0 := h q (by simp)
    simp [isZeroTok, isZeroVal, hq]
    intro x hx
    have := h x (by simp [hx])
    simp [this]

lemma recipList_map_rat {qs : List ℚ} (h : ∀ q ∈ qs, q ≠ 0) :
    recipList (qs.map PyVal.rat) = .ok (qs.map fun q => PyVal.rat (1 / q)) := by
  induction qs with
  | nil => rfl
  | cons q l ih =>
    have hq : q ≠ 0 := h q (by simp)
    have ih' := ih (fun x hx => h x (by simp [hx]))
    simp [recipList, pyDiv, isZeroVal, hq, ih']

/-! The claims. -/

/-- C1: evaluation of the `power` node is right-associative: for operands
`[a, b, c]` (the `^` tokens are ignored) the evaluator computes `a ^ (b ^ c)`;
in particular `evaluate("2^3^2")` yields `512`, not `64`. -/
theorem c1_power_right_associative :
    (∀ a b c : PyVal,
        evalPower [.val a, .str "^", .val b, .str "^", .val c] =
          ((pypow b c).bind fun t => pypow a t).map EvalTok.val) ∧
    evaluator [] [] "2^3^2" false = .ok (.val (.rat 512)) ∧
    evaluator [] [] "2^3^2" false ≠ .ok (.val (.rat 64)) := by
  have h512 : evaluator [] [] "2^3^2" false = .ok (.val (.rat 512)) := by
    with_unfolding_all rfl
  refine ⟨?_, h512, ?_⟩
  · intro a b c
    show (powFold c [b, a]).map EvalTok.val = _
    cases hbc : pypow b c with
    | error e => simp [powFold, hbc, Except.bind]
    | ok t =>
      cases hat : pypow a t with
      | error e => simp [powFold, hbc, hat, Except.bind, Except.map]
      | ok r => simp [powFold, hbc, hat, Except.bind, Except.map]
  · rw [h512]
    intro hcontra
    have h1 : (512 : ℚ) = 64 := by
      injection hcontra with h1
      injection h1 with h2
      injection h2
    norm_num at h1

/-- C2: `eval_parallel` returns a single operand unchanged; any zero operand
short-circuits the node to `nan` (without raising); otherwise the node
computes `1 / (1/x1 + 1/x2 + ...)` over its operands; in particular
`evaluate("5||0")` is `nan`. -/
theorem c2_parallel_evaluation :
    evaluator [] [] "5||0" false = .ok (.val .nan) ∧
    (∀ t : EvalTok, evalParallel [t] = .ok t) ∧
    (∀ kids : List EvalTok, kids.length ≠ 1 → (∃ x ∈ kids, isZeroTok x = true) →
        evalParallel kids = .ok (.val .nan)) ∧
    (∀ qs : List ℚ, qs.length ≠ 1 → (∀ q ∈ qs, q ≠ 0) →
        evalParallel (qs.map fun q => .val (.rat q)) =
          (pyDiv (.rat 1) (.rat ((qs.map fun q => 1 / q).foldl (· + ·) 0))).map
            EvalTok.val) := by
  refine ⟨by with_unfolding_all rfl, ?_, ?_, ?_⟩
  · intro t; rfl
  · intro kids hlen hex
    have hany : kids.any isZeroTok = true := by
      rw [List.any_eq_true]
      obtain ⟨x, hx, hz⟩ := hex
      exact ⟨x, hx, hz⟩
    simp [evalParallel, hlen, hany]
  · intro qs hlen hnz
    have hlen' : (qs.map fun q => EvalTok.val (.rat q)).length ≠ 1 := by
      simpa using hlen
    have hmm : (qs.map fun q => PyVal.rat (1 / q)) =
        (qs.map fun q => 1 / q).map PyVal.rat := by
      simp [List.map_map]
    simp only [evalParallel, hlen', if_neg, any_isZero_map_rat hnz,
      getValTok_map_rat, recipList_map_rat hnz, Bool.false_eq_true, if_false]
    rw [hmm, foldl_pyAdd_rat]
    cases hpd : pyDiv (.rat 1) (.rat ((qs.map fun q => 1 / q).foldl (· + ·) 0)) with
    | error e => simp [Except.map]
    | ok r => simp [Except.map]

/-- C2 witness: concrete instances of the three general parts. -/
theorem c2_parallel_evaluation_witness :
    evalParallel [.val (.rat 7)] = .ok (.val (.rat 7)) ∧
    evalParallel [.val (.rat 5), .str "||", .val (.rat 0)] = .ok (.val .nan) ∧
    evalParallel [.val (.rat 1), .val (.rat 2)] =
      (pyDiv (.rat 1) (.rat (([1, 2].map fun q : ℚ => 1 / q).foldl (· + ·) 0))).map
        EvalTok.val :=
  ⟨c2_parallel_evaluation.2.1 (.val (.rat 7)),
   c2_parallel_evaluation.2.2.1 [.val (.rat 5), .str "||", .val (.rat 0)]
     (by decide)
     ⟨.val (.rat 0), by simp, by with_unfolding_all rfl⟩,
   c2_parallel_evaluation.2.2.2 [1, 2] (by decide) (by norm_num)⟩

/-- C3: `render_product` scans the operand/operator sequence tracking
numerator/denominator mode, closing a `\frac` group at each transition back
to numerator mode and joining groups and trailing bare terms with `\cdot`;
in particular `render_to_latex("a/b*c/d*e")` is
`\frac{a}{b}\cdot \frac{c}{d}\cdot e` (together with the source's other
documented product examples). -/
theorem c3_product_fraction_rendering :
    latex_preview "a/b*c/d*e" [] [] false =
      .ok "\\frac\x7ba\x7d\x7bb\x7d\\cdot \\frac\x7bc\x7d\x7bd\x7d\\cdot e" ∧
    latex_preview "a*b" [] [] false = .ok "a\\cdot b" ∧
    latex_preview "a/b" [] [] false = .ok "\\frac\x7ba\x7d\x7bb\x7d" ∧
    latex_preview "a*b/c/d" [] [] false =
      .ok "\\frac\x7ba\\cdot b\x7d\x7bc\\cdot d\x7d" :=
  ⟨rfl, rfl, rfl, rfl⟩

/-- C6: the claim says `evaluate("E", {}, {})` with `case_sensitive=false`
resolves to the default constant `e`.  In the code as written it raises
`TypeError` instead: the set-returning `add_defaults` (line 861) shadows the
dict-returning one (line 319), so the `variable` action subscripts a set.
The case-sensitive half of the claim does hold (`UndefinedVariable "E"`), and
the shadowed dict `add_defaults` would indeed have supplied `e`. -/
theorem c6_case_insensitive_lookup_bug :
    evaluator [] [] "E" false = .error .typeError ∧
    evaluator [] [] "E" true = .error (.undefinedVariable "E") ∧
    (add_defaults_dicts [] false).find? (fun p => p.1 == "e") =
      some ("e", .rat (6121026514868073 / 2251799813685248)) := by
  refine ⟨rfl, rfl, ?_⟩
  with_unfolding_all rfl

/-- C7: the parallel operator is commutative under evaluation: for nonzero
numeric operands `a`, `b` the `parallel` node evaluates to the same result in
either order; in particular the full pipeline gives
`evaluate("3||5") == evaluate("5||3")`. -/
theorem c7_parallel_commutative (a b : ℚ) (ha : a ≠ 0) (hb : b ≠ 0) :
    evalParallel [.val (.rat a), .str "||", .val (.rat b)] =
      evalParallel [.val (.rat b), .str "||", .val (.rat a)] ∧
    evaluator [] [] "3||5" false = evaluator [] [] "5||3" false := by
  constructor
  · simp [evalParallel, isZeroTok, isZeroVal, ha, hb, recipList, pyDiv, pyAdd]
    rw [show b⁻¹ + a⁻¹ = a⁻¹ + b⁻¹ from add_comm _ _]
  · with_unfolding_all rfl

/-- C7 witness: the commutation instance at `a = 3`, `b = 5`. -/
theorem c7_parallel_commutative_witness :
    evalParallel [.val (.rat 3), .str "||", .val (.rat 5)] =
      evalParallel [.val (.rat 5), .str "||", .val (.rat 3)] :=
  (c7_parallel_commutative 3 5 (by norm_num) (by norm_num)).1

/-- C8: an empty or whitespace-only expression is handled before parsing:
`evaluator` returns `nan` and `latex_preview` returns the empty string, for
every environment and flag (the parser and environment are never consulted). -/
theorem c8_blank_input (s : String) (h : pyStrip s = "")
    (uv : List (String × PyVal)) (uf : List String) (cs : Bool)
    (rv rf : List String) (rcs : Bool) :
    evaluator uv uf s cs = .ok (.val .nan) ∧ latex_preview s rv rf rcs = .ok "" := by
  constructor
  · unfold evaluator
    rw [if_pos h]
  · unfold latex_preview
    rw [if_pos h]

/-- C8 witness: the concrete inputs `""` and `"   "`. -/
theorem c8_blank_input_witness :
    evaluator [] [] "" false = .ok (.val .nan) ∧
    evaluator [] [] "   " false = .ok (.val .nan) ∧
    latex_preview "" [] [] false = .ok "" :=
  ⟨(c8_blank_input "" rfl [] [] false [] [] false).1,
   (c8_blank_input "   " rfl [] [] false [] [] false).1,
   (c8_blank_input "" rfl [] [] false [] [] false).2⟩

/-- C9: `render_to_latex` never raises an undefined-identifier error: the
membership checks in the variable/function closures have `pass` bodies, so
the supplied name sets and case flag have no effect whatsoever on the output,
and unknown names are rendered with the ordinary escaping/Greek/special-case
formatting. -/
theorem c9_render_ignores_unknown_names :
    (∀ (expr : String) (v1 f1 : List String) (b1 : Bool) (v2 f2 : List String) (b2 : Bool),
        latex_preview expr v1 f1 b1 = latex_preview expr v2 f2 b2) ∧
    latex_preview "myvar+myfun(x)" [] [] false =
      .ok "myvar+\\text\x7bmyfun\x7d(x)" ∧
    latex_preview "alpha_foo" [] [] false = .ok "\\alpha_\x7bfoo\x7d" := by
  refine ⟨?_, rfl, rfl⟩
  intro expr v1 f1 b1 v2 f2 b2
  rfl

/-- C10: the claim says `evaluate("i", {}, {})` returns the complex unit and
`evaluate("i*i")` returns `-1`.  `DEFAULT_VARIABLES` does map `i` to the
imaginary unit (and Python `i*i` would give `-1` as a complex), but in the
code as written both calls raise `TypeError`: the set-returning
`add_defaults` shadows the dict-returning one, so the `variable` action
subscripts a set of names. -/
theorem c10_complex_default_variables_bug :
    evaluator [] [] "i" false = .error .typeError ∧
    evaluator [] [] "i*i" false = .error .typeError ∧
    DEFAULT_VARIABLES.find? (fun p => p.1 == "i") = some ("i", .cplx 0 1) ∧
    pyMul (.cplx 0 1) (.cplx 0 1) = .cplx (-1) 0 := by
  refine ⟨rfl, rfl, rfl, ?_⟩
  with_unfolding_all rfl

/-- C4: when parsing succeeds and some referenced variable or function name
is (after case normalization) absent from the merged environment, evaluation
fails with a single undefined-identifier error whose message is the complete
deduplicated, sorted, space-joined list of all offending names — the check is
exhaustive over every bad name, not fail-fast. -/
theorem c4_undefined_identifier_check (expr : String) (tree : PTree)
    (uv : List (String × PyVal)) (uf : List String) (cs : Bool)
    (hp : parseAlgebra expr = some tree)
    (hbad : badIdentifiers cs (collectUsed (parseFuel expr) tree).1
        (collectUsed (parseFuel expr) tree).2
        (add_defaults_sets (uv.map Prod.fst) uf cs).1
        (add_defaults_sets (uv.map Prod.fst) uf cs).2 ≠ []) :
    evaluator uv uf expr cs =
      .error (.undefinedVariable (spaceJoin (sortStrings
        (badIdentifiers cs (collectUsed (parseFuel expr) tree).1
          (collectUsed (parseFuel expr) tree).2
          (add_defaults_sets (uv.map Prod.fst) uf cs).1
          (add_defaults_sets (uv.map Prod.fst) uf cs).2)))) := by
  have hne := parse_some_strip_ne hp
  have hempty : (badIdentifiers cs (collectUsed (parseFuel expr) tree).1
      (collectUsed (parseFuel expr) tree).2
      (add_defaults_sets (uv.map Prod.fst) uf cs).1
      (add_defaults_sets (uv.map Prod.fst) uf cs).2).isEmpty = false := by
    cases hcase : badIdentifiers cs (collectUsed (parseFuel expr) tree).1
        (collectUsed (parseFuel expr) tree).2
        (add_defaults_sets (uv.map Prod.fst) uf cs).1
        (add_defaults_sets (uv.map Prod.fst) uf cs).2 with
    | nil => exact absurd hcase hbad
    | cons x xs => rfl
  unfold evaluator
  rw [if_neg hne, hp]
  simp only [checkVariables, hempty, Bool.false_eq_true, if_false]

/-- C4 witness: `evaluate("x+1", {}, {})` fails naming exactly `x`. -/
theorem c4_undefined_identifier_check_witness :
    evaluator [] [] "x+1" false = .error (.undefinedVariable "x") :=
  c4_undefined_identifier_check "x+1"
    (PTree.node "sum"
      [PTree.node "product"
        [PTree.node "parallel"
          [PTree.node "power"
            [PTree.node "atom" [PTree.node "variable" [PTree.leaf "x"]]]]],
       PTree.leaf "+",
       PTree.node "product"
        [PTree.node "parallel"
          [PTree.node "power"
            [PTree.node "atom" [PTree.node "number" [PTree.leaf "1"]]]]]])
    [] [] false rfl (by decide)

/-- C5: for every valid numeric literal `L` and SI suffix `s`,
`super_float(L + s) = float(L) * SUFFIXES[s]`; a literal whose last character
is not a suffix evaluates to plain `float(L)`; E-exponent literals multiply
the mantissa by the power of ten (concrete pipeline instances included). -/
theorem c5_si_suffix_literals :
    (∀ (L : String) (q : ℚ) (c : Char) (m : ℚ),
        pyFloatQ L.data = some q → suffixValue c = some m →
        superFloat (L.push c).data = some (q * m)) ∧
    (∀ (L : String) (q : ℚ),
        pyFloatQ L.data = some q →
        (∀ c, L.data.getLast? = some c → suffixValue c = none) →
        superFloat L.data = some q) ∧
    evaluator [] [] "7.13E3" false = .ok (.val (.rat 7130)) ∧
    evaluator [] [] "2E-2" false = .ok (.val (.rat (1 / 50))) ∧
    evaluator [] [] "5k" false = .ok (.val (.rat 5000)) ∧
    evaluator [] [] "1%" false = .ok (.val (.rat (1 / 100))) := by
  refine ⟨?_, ?_, ?_, ?_, ?_, ?_⟩
  · intro L q c m hL hc
    have hdata : (L.push c).data = L.data ++ [c] := by
      simp [String.push]
    rw [hdata]
    simp [superFloat, List.getLast?_concat, List.dropLast_concat, hc, hL]
  · intro L q hL hsuf
    cases hlast : L.data.getLast? with
    | none =>
      have hnil : L.data = [] := by
        simpa using hlast
      rw [hnil] at hL
      simp [pyFloatQ] at hL
    | some c =>
      have hc := hsuf c hlast
      simp [superFloat, hlast, hc, hL]
  · with_unfolding_all rfl
  · with_unfolding_all rfl
  · with_unfolding_all rfl
  · with_unfolding_all rfl

/-- C5 witness: the suffix law at `L = "7.13"`, `s = 'k'` and the no-suffix
case at `L = "42"`. -/
theorem c5_si_suffix_literals_witness :
    superFloat ("7.13".push 'k').data = some ((713 / 100 : ℚ) * 1000) ∧
    superFloat "42".data = some 42 :=
  ⟨c5_si_suffix_literals.1 "7.13" (713 / 100) 'k' 1000 (by with_unfolding_all rfl)
     (by with_unfolding_all rfl),
   c5_si_suffix_literals.2.1 "42" 42 (by with_unfolding_all rfl)
     (by
       intro c hc
       rw [show ("42".data.getLast?) = some '2' from rfl] at hc
       cases hc
       rfl)⟩

/-- C1 witness: the right-association law at the operands of `2^3^2`. -/
theorem c1_power_right_associative_witness :
    evalPower [.val (.rat 2), .str "^", .val (.rat 3), .str "^", .val (.rat 2)] =
      ((pypow (.rat 3) (.rat 2)).bind fun t => pypow (.rat 2) t).map EvalTok.val :=
  c1_power_right_associative.1 (.rat 2) (.rat 3) (.rat 2)
